import Mathlib

/-!
Verification of the command-query plugin (`src/main.py`): a shallow
embedding of its data model (plugin stars, handler metadata, the command
index), the index builder `_get_all_commands`, the count-based cache
policy `_should_refresh_cache` / `refresh_cache`, the four-tier fuzzy
search `_search_similar_commands`, and the tool operations
`search_command` / `get_command_detail`.
-/

namespace CommandQuery

/-- A plugin as seen through the host's star registry: display name,
optional module identity, activation flag (`star.name`,
`star.module_path`, `star.activated` in the source). -/
structure Star where
  name : String
  module_path : Option String
  activated : Bool
deriving DecidableEq

/-- An event filter attached to a handler: a command filter (with its
alias set, flattened to a list), a command-group filter, or any other
filter kind. -/
inductive EventFilter where
  | command (command_name : String) (aliasSet : List String)
  | commandGroup (group_name : String)
  | other
deriving DecidableEq

/-- Handler metadata from `star_handlers_registry`: module path,
optional description, event filters. -/
structure Handler where
  handler_module_path : String
  desc : Option String
  event_filters : List EventFilter
deriving DecidableEq

/-- One value of the command dictionary built by `_get_all_commands`. -/
structure CommandInfo where
  command : String
  description : String
  plugin : String
  aliases : List String
  is_alias_of : Option String
deriving DecidableEq

/-- The command index: a Python dict `str -> dict`, embedded as an
insertion-ordered association list with unique keys maintained by
`pyInsert`. -/
abbrev Index := List (String × CommandInfo)

/-- `isPfx pat l` is `true` when `pat` is a prefix of `l`. -/
def isPfx : List Char → List Char → Bool
  | [], _ => true
  | _ :: _, [] => false
  | p :: ps, c :: cs => (p = c) && isPfx ps cs

/-- `isSubList pat l` is `true` when `pat` occurs contiguously in `l`. -/
def isSubList : List Char → List Char → Bool
  | pat, [] => pat.isEmpty
  | pat, c :: t => isPfx pat (c :: t) || isSubList pat t

/-- Python `pat in s` on strings: substring test. -/
def pyIn (pat s : String) : Bool :=
  isSubList pat.data s.data

/-- Python `s.lower()`, embedded character-wise over the string's data
(kernel-computable, unlike `String.toLower`). -/
def sLower (s : String) : String :=
  ⟨s.data.map Char.toLower⟩

/-- Python `s.strip()`: drop whitespace from both ends. -/
def sTrim (s : String) : String :=
  ⟨((s.data.dropWhile Char.isWhitespace).reverse.dropWhile Char.isWhitespace).reverse⟩

/-- Python `s.startswith("/")`: the first character is the sentinel. -/
def headIsSlash (s : String) : Bool :=
  match s.data with
  | [] => false
  | c :: _ => c = '/'

/-- Python `s[1:]`: drop the first character. -/
def sDrop1 (s : String) : String :=
  ⟨s.data.drop 1⟩

/-- Python dict lookup: first (unique) matching key. -/
def pyGet : Index → String → Option CommandInfo
  | [], _ => none
  | (k', v') :: rest, k => if k' = k then some v' else pyGet rest k

/-- Python dict assignment `d[k] = v`: replace in place if the key
exists, else append at the end. -/
def pyInsert : Index → String → CommandInfo → Index
  | [], k, v => [(k, v)]
  | (k', v') :: rest, k, v =>
    if k' = k then (k', v) :: rest else (k', v') :: pyInsert rest k v

/-- `handler.desc or "无描述"` (Python `or`: `None` and `""` are falsy). -/
def pyDesc : Option String → String
  | none => "无描述"
  | some d => if d = "" then "无描述" else d

/-- Ensure the sentinel `/` marker is present (lines 183-184, 197-198). -/
def ensureSlash (s : String) : String :=
  if headIsSlash s then s else "/" ++ s

/-- Keyword normalization of `_search_similar_commands` (lines 215-219):
lower-case, trim, then drop one leading sentinel. -/
def searchNorm (keyword : String) : String :=
  let k := sTrim (sLower keyword)
  if headIsSlash k then sDrop1 k else k

/-- The first command or command-group filter of a handler wins
(lines 166-178); a command-group contributes no aliases. -/
def findCommandFilter : List EventFilter → Option (String × List String)
  | [] => none
  | EventFilter.command n a :: _ => some (n, a)
  | EventFilter.commandGroup g :: _ => some (g, [])
  | EventFilter.other :: rest => findCommandFilter rest

/-- The index entries contributed by one handler (lines 159-203): a
canonical record plus one alias record per alias name; alias records
copy the canonical data, switch `command` to the alias, and set
`is_alias_of`.  The `aliases` field stores the raw alias names. -/
def handlerEntries (plugin_name : String) (h : Handler) : List (String × CommandInfo) :=
  match findCommandFilter h.event_filters with
  | none => []
  | some (n, aliases) =>
    if n = "" then []
    else
      let cname := ensureSlash n
      let base : CommandInfo :=
        { command := cname, description := pyDesc h.desc, plugin := plugin_name,
          aliases := aliases, is_alias_of := none }
      (cname, base) ::
        aliases.map (fun al =>
          (ensureSlash al,
           { base with command := ensureSlash al, is_alias_of := some cname }))

/-- The fixed plugin denylist of `_get_all_commands` (line 149). -/
def denylist : List String :=
  ["astrbot", "astrbot_plugin_command_query", "astrbot-reminder"]

/-- The index entries contributed by one plugin star (lines 144-203):
denylisted or module-less stars contribute nothing; otherwise all
handlers sharing the star's module path contribute in registry order. -/
def starEntries (registry : List Handler) (star : Star) : List (String × CommandInfo) :=
  if star.name ∈ denylist then []
  else
    match star.module_path with
    | none => []
    | some mp =>
      (registry.filter (fun h => h.handler_module_path = mp)).flatMap
        (handlerEntries star.name)

/-- The builder core of `_get_all_commands`: fold all contributed
entries into a dict in order. -/
def buildFromStars (stars : List Star) (registry : List Handler) : Index :=
  (stars.flatMap (starEntries registry)).foldl (fun d p => pyInsert d p.1 p.2) []

/-- The environment supplied by the host: `context.get_all_stars()`
(`none` models the call raising) and `star_handlers_registry`. -/
structure Env where
  stars : Option (List Star)
  registry : List Handler

/-- The mutable plugin state: `_command_cache` and `_last_star_count`. -/
structure QState where
  command_cache : Option Index
  last_star_count : Nat
deriving DecidableEq

/-- The state set by `__init__`. -/
def initState : QState := { command_cache := none, last_star_count := 0 }

/-- `_should_refresh_cache` (lines 79-100): re-derive the activated
count; on change record it and report `true`; an exception from the
registry is caught and reported as `false`. -/
def should_refresh_cache (env : Env) (s : QState) : Bool × QState :=
  match env.stars with
  | none => (false, s)
  | some stars =>
    let current := (stars.filter (fun st => st.activated)).length
    if current ≠ s.last_star_count then
      (true, { s with last_star_count := current })
    else (false, s)

/-- The rebuild path of `_get_all_commands` (lines 124-207): clear the
cache, enumerate activated stars (a raised exception or an empty list
yields `{}` without caching), otherwise build and cache the dict.  The
`Bool` is `true` exactly when this path ran. -/
def buildPath (env : Env) (s : QState) : Index × QState × Bool :=
  let s0 : QState := { s with command_cache := none }
  match env.stars with
  | none => ([], s0, true)
  | some stars =>
    let act := stars.filter (fun st => st.activated)
    if act.isEmpty then ([], s0, true)
    else
      let d := buildFromStars act env.registry
      (d, { s0 with command_cache := some d }, true)

/-- `_get_all_commands` (lines 102-207): return the cache when present
and the staleness check is negative, else rebuild. -/
def get_all_commands (env : Env) (s : QState) : Index × QState × Bool :=
  match s.command_cache with
  | some c =>
    let rs := should_refresh_cache env s
    if rs.1 then buildPath env rs.2 else (c, rs.2, false)
  | none => buildPath env s

/-- The state effect of `refresh_cache` (lines 668-694): clear the
cache, reset the count to 0, then rebuild immediately. -/
def refresh_cache (env : Env) (s : QState) : QState :=
  (get_all_commands env { s with command_cache := none, last_star_count := 0 }).2.1

/-- Tier 2 of `_search_similar_commands` (lines 228-235): append every
record whose lower-cased name contains the keyword and that is not yet
in the results; no limit check. -/
def tier2 (kw : String) : List (String × CommandInfo) → List CommandInfo → List CommandInfo
  | [], results => results
  | (cmd_name, cmd_info) :: rest, results =>
    if cmd_info ∈ results then tier2 kw rest results
    else if pyIn kw (sLower cmd_name) then tier2 kw rest (results ++ [cmd_info])
    else tier2 kw rest results

/-- Tiers 3 and 4 of `_search_similar_commands` (lines 237-261) share
this loop shape: skip records already present, append on a match of
`f`, and break as soon as the limit is reached. -/
def tierScan (f : CommandInfo → String) (kw : String) (limit : Nat) :
    List CommandInfo → List CommandInfo → List CommandInfo
  | [], results => results
  | cmd_info :: rest, results =>
    if cmd_info ∈ results then tierScan f kw limit rest results
    else
      let results' := if pyIn kw (sLower (f cmd_info)) then results ++ [cmd_info] else results
      if limit ≤ results'.length then results'
      else tierScan f kw limit rest results'

/-- `_search_similar_commands` (lines 209-263): exact tier, name tier,
description tier, plugin tier, then truncate to `limit`. -/
def search_similar (all_commands : Index) (keyword : String) (limit : Nat) :
    List CommandInfo :=
  let kw := searchNorm keyword
  let r1 : List CommandInfo :=
    match pyGet all_commands ("/" ++ kw) with
    | some v => [v]
    | none => []
  let r2 := tier2 kw all_commands r1
  let r3 :=
    if r2.length < limit then
      tierScan (fun c => c.description) kw limit (all_commands.map (fun p => p.2)) r2
    else r2
  let r4 :=
    if r3.length < limit then
      tierScan (fun c => c.plugin) kw limit (all_commands.map (fun p => p.2)) r3
    else r3
  r4.take limit

/-- `_replace_prefix` (lines 51-63): swap a leading sentinel for the
configured display marker. -/
def replacePfx (cp : String) (s : String) : String :=
  if headIsSlash s then cp ++ sDrop1 s else s

/-- The result cleaning of `search_command` (lines 312-322). -/
def cleanInfo (cp : String) (c : CommandInfo) : CommandInfo :=
  { command := replacePfx cp c.command, description := c.description,
    plugin := c.plugin, aliases := c.aliases.map (replacePfx cp),
    is_alias_of := c.is_alias_of.map (replacePfx cp) }

/-- The structured reply of the `search_command` tool. -/
structure ToolResponse where
  success : Bool
  results : List CommandInfo
deriving DecidableEq

/-- `search_command` after the index has been obtained (lines 302-329). -/
def search_command_core (cp : String) (idx : Index) (keyword : String) : ToolResponse :=
  let rs := search_similar idx keyword 5
  if rs.isEmpty then { success := false, results := [] }
  else { success := true, results := rs.map (cleanInfo cp) }

/-- The `search_command` tool (lines 266-337): missing-argument check,
then search over the current index with limit 5. -/
def search_command (cp : String) (env : Env) (s : QState) (keyword : String) :
    ToolResponse × QState :=
  if keyword = "" then ({ success := false, results := [] }, s)
  else
    let g := get_all_commands env s
    (search_command_core cp g.1 keyword, g.2.1)

/-- The structured reply of the `get_command_detail` tool. -/
structure DetailResponse where
  success : Bool
  command : Option String
  description : Option String
  plugin : Option String
  aliases : Option (List String)
  similar_commands : Option (List String)
  is_alias_of : Option String
  note : Option String
  suggestions : Option (List String)
deriving DecidableEq

/-- The same-plugin related-command scan of `get_command_detail`
(lines 393-402): real records of the same plugin other than the queried
one, capped at 3. -/
def collectSimilar (plugin_name command_name : String) :
    List (String × CommandInfo) → List String → List String
  | [], acc => acc
  | (cmd_name, cmd_data) :: rest, acc =>
    if cmd_data.plugin = plugin_name ∧ cmd_name ≠ command_name then
      if cmd_data.is_alias_of = none then
        let acc' := acc ++ [cmd_name]
        if 3 ≤ acc'.length then acc'
        else collectSimilar plugin_name command_name rest acc'
      else collectSimilar plugin_name command_name rest acc
    else collectSimilar plugin_name command_name rest acc

/-- `get_command_detail` after the index has been obtained
(lines 375-418): normalize the name, look it up; on failure suggest the
names found by a limit-3 search on the normalized name. -/
def get_command_detail_core (cp : String) (idx : Index) (command_name : String) :
    DetailResponse :=
  let cn := ensureSlash command_name
  match pyGet idx cn with
  | none =>
    let similar := search_similar idx cn 3
    { success := false, command := none, description := none, plugin := none,
      aliases := none, similar_commands := none, is_alias_of := none, note := none,
      suggestions := some (similar.map (fun c => c.command)) }
  | some cmd_info =>
    let sim := collectSimilar cmd_info.plugin cn idx []
    { success := true,
      command := some (replacePfx cp cmd_info.command),
      description := some cmd_info.description,
      plugin := some cmd_info.plugin,
      aliases := some (cmd_info.aliases.map (replacePfx cp)),
      similar_commands := some (sim.map (replacePfx cp)),
      is_alias_of := cmd_info.is_alias_of.map (replacePfx cp),
      note := cmd_info.is_alias_of.map
        (fun x => "这是 " ++ replacePfx cp x ++ " 的别名"),
      suggestions := none }

/-- The `get_command_detail` tool (lines 339-425). -/
def get_command_detail (cp : String) (env : Env) (s : QState) (command_name : String) :
    DetailResponse × QState :=
  if command_name = "" then
    ({ success := false, command := none, description := none, plugin := none,
       aliases := none, similar_commands := none, is_alias_of := none, note := none,
       suggestions := none }, s)
  else
    let g := get_all_commands env s
    (get_command_detail_core cp g.1 command_name, g.2.1)

/-- The alias-symmetry property of an index (spec section 8): every real
record's alias names resolve to alias records pointing back at it, and
every alias record's target is present as a real record. -/
def aliasSym (idx : Index) : Prop :=
  (∀ p ∈ idx, p.2.is_alias_of = none → ∀ a ∈ p.2.aliases,
      ∃ q, pyGet idx (ensureSlash a) = some q ∧ q.is_alias_of = some p.2.command) ∧
  (∀ p ∈ idx, ∀ x, p.2.is_alias_of = some x →
      ∃ q, pyGet idx x = some q ∧ q.is_alias_of = none)

/-- A sample real command record used by several witnesses. -/
def recA : CommandInfo :=
  { command := "/fish", description := "d", plugin := "p", aliases := [], is_alias_of := none }

/-- An environment with exactly one activated plugin and no handlers. -/
def envOneStar : Env :=
  { stars := some [{ name := "p", module_path := some "m", activated := true }],
    registry := [] }

/-- A record whose name substring-matches "fish" and precedes the
capitalized record in index order. -/
def infoXfy : CommandInfo :=
  { command := "/xfishy", description := "d1", plugin := "p1", aliases := [], is_alias_of := none }

/-- A record stored with a capital letter in its name. -/
def infoCapFish : CommandInfo :=
  { command := "/Fish", description := "d2", plugin := "p2", aliases := [], is_alias_of := none }

/-- An index containing a record whose stored name is not lower-case. -/
def idxCap : Index := [("/xfishy", infoXfy), ("/Fish", infoCapFish)]

/-- A plugin star outside the denylist with module identity "m". -/
def starP : Star := { name := "pl", module_path := some "m", activated := true }

/-- A handler declaring command "x" with alias "y". -/
def handlerXY : Handler :=
  { handler_module_path := "m", desc := some "d1",
    event_filters := [EventFilter.command "x" ["y"]] }

/-- A handler declaring command "z" with alias "x" (colliding with the
canonical name of `handlerXY`). -/
def handlerZX : Handler :=
  { handler_module_path := "m", desc := some "d2",
    event_filters := [EventFilter.command "z" ["x"]] }

/-- The record at key "/y" in the colliding snapshot's index. -/
def recYAlias : CommandInfo :=
  { command := "/y", description := "d1", plugin := "pl", aliases := ["y"],
    is_alias_of := some "/x" }

/-- The overwritten record at key "/x" in the colliding snapshot. -/
def recXOverwritten : CommandInfo :=
  { command := "/x", description := "d2", plugin := "pl", aliases := ["x"],
    is_alias_of := some "/z" }

/-- The canonical record a handler contributes, given its command name
and alias list. -/
def baseRecord (pn : String) (h : Handler) (n : String) (al : List String) : CommandInfo :=
  { command := ensureSlash n, description := pyDesc h.desc, plugin := pn,
    aliases := al, is_alias_of := none }

/-- The alias record a handler contributes for alias name `a`. -/
def aliasRecord (pn : String) (h : Handler) (n : String) (al : List String)
    (a : String) : CommandInfo :=
  { baseRecord pn h n al with
    command := ensureSlash a, is_alias_of := some (ensureSlash n) }

/-- A handler declaring the command "钓鱼" with alias set {"fish"}. -/
def handlerDiao : Handler :=
  { handler_module_path := "m", desc := some "钓鱼游戏",
    event_filters := [EventFilter.command "钓鱼" ["fish"]] }

/-- The "astrbot-reminder" star: activated, resolvable module identity,
and a name that is neither the host core plugin nor this system. -/
def starReminder : Star :=
  { name := "astrbot-reminder", module_path := some "m7", activated := true }

/-- A handler declaring the command "remind" under module "m7". -/
def handlerRemind : Handler :=
  { handler_module_path := "m7", desc := some "r",
    event_filters := [EventFilter.command "remind" []] }

/-- A handler declaring command "fish" with description "d9". -/
def handlerFish : Handler :=
  { handler_module_path := "m", desc := some "d9",
    event_filters := [EventFilter.command "fish" []] }

/-- An environment with one activated plugin exposing only "/fish". -/
def envFish : Env := { stars := some [starP], registry := [handlerFish] }

/-- A handler declaring command "a" under module "mx". -/
def handlerA : Handler :=
  { handler_module_path := "mx", desc := some "da",
    event_filters := [EventFilter.command "a" []] }

/-- A handler declaring the bare-sentinel command "/" under "mx". -/
def handlerSlash : Handler :=
  { handler_module_path := "mx", desc := some "ds",
    event_filters := [EventFilter.command "/" []] }

/-- An environment whose index has a record keyed by the bare sentinel. -/
def envSlash : Env :=
  { stars := some [{ name := "px", module_path := some "mx", activated := true }],
    registry := [handlerA, handlerSlash] }

theorem pyGet_mem : ∀ {d : Index} {k : String} {v : CommandInfo},
    pyGet d k = some v → (k, v) ∈ d := by
  intro d
  induction d with
  | nil => intro k v h; simp [pyGet] at h
  | cons p rest ih =>
    intro k v h
    obtain ⟨k', v'⟩ := p
    by_cases hk : k' = k
    · subst hk
      simp [pyGet] at h
      subst h
      exact List.mem_cons_self _ _
    · rw [pyGet, if_neg hk] at h
      exact List.mem_cons_of_mem _ (ih h)

theorem pyGet_eq_none : ∀ {d : Index} {k : String},
    k ∉ d.map Prod.fst → pyGet d k = none := by
  intro d
  induction d with
  | nil => intro k _; rfl
  | cons p rest ih =>
    intro k h
    obtain ⟨k', v'⟩ := p
    simp only [List.map_cons, List.mem_cons] at h
    push_neg at h
    rw [pyGet, if_neg (fun he => h.1 he.symm)]
    exact ih h.2

theorem pyGet_nodup : ∀ {d : Index}, (d.map Prod.fst).Nodup →
    ∀ {k : String} {v : CommandInfo}, (k, v) ∈ d → pyGet d k = some v := by
  intro d
  induction d with
  | nil => intro _ k v h; simp at h
  | cons p rest ih =>
    intro hnd k v h
    obtain ⟨k', v'⟩ := p
    simp only [List.map_cons, List.nodup_cons] at hnd
    rcases List.mem_cons.mp h with heq | hmem
    · injection heq with h1 h2
      subst h1; subst h2
      rw [pyGet, if_pos rfl]
    · by_cases hk : k' = k
      · subst hk
        exact absurd (List.mem_map_of_mem Prod.fst hmem) hnd.1
      · rw [pyGet, if_neg hk]
        exact ih hnd.2 hmem

theorem pyInsert_not_mem : ∀ {d : Index} {k : String} {v : CommandInfo},
    k ∉ d.map Prod.fst → pyInsert d k v = d ++ [(k, v)] := by
  intro d
  induction d with
  | nil => intro k v _; rfl
  | cons p rest ih =>
    intro k v h
    obtain ⟨k', v'⟩ := p
    simp only [List.map_cons, List.mem_cons] at h
    push_neg at h
    rw [pyInsert, if_neg (fun he => h.1 he.symm)]
    simp [ih h.2]

theorem mem_keys_pyInsert : ∀ {d : Index} {k x : String} {v : CommandInfo},
    x ∈ (pyInsert d k v).map Prod.fst ↔ x ∈ d.map Prod.fst ∨ x = k := by
  intro d
  induction d with
  | nil => intro k x v; simp [pyInsert]
  | cons p rest ih =>
    intro k x v
    obtain ⟨k', v'⟩ := p
    by_cases hk : k' = k
    · subst hk
      simp [pyInsert]
      tauto
    · rw [pyInsert, if_neg hk]
      simp only [List.map_cons, List.mem_cons, ih]
      tauto

theorem foldl_pyInsert_nodup : ∀ (l d : Index),
    ((d ++ l).map Prod.fst).Nodup →
    l.foldl (fun d p => pyInsert d p.1 p.2) d = d ++ l := by
  intro l
  induction l with
  | nil => intro d _; simp
  | cons p rest ih =>
    intro d h
    obtain ⟨k, v⟩ := p
    have hk : k ∉ d.map Prod.fst := by
      rw [List.map_append, List.nodup_append] at h
      intro hm
      exact h.2.2 hm (by simp)
    rw [List.foldl_cons]
    show List.foldl (fun d p => pyInsert d p.1 p.2) (pyInsert d k v) rest = _
    rw [pyInsert_not_mem hk]
    have h' : (((d ++ [(k, v)]) ++ rest).map Prod.fst).Nodup := by
      rw [List.append_assoc]
      exact h
    rw [ih (d ++ [(k, v)]) h', List.append_assoc]
    rfl

theorem mem_keys_foldl : ∀ (l d : Index) (x : String),
    (x ∈ d.map Prod.fst ∨ x ∈ l.map Prod.fst) →
    x ∈ (l.foldl (fun d p => pyInsert d p.1 p.2) d).map Prod.fst := by
  intro l
  induction l with
  | nil =>
    intro d x h
    simpa using h.resolve_right (by simp)
  | cons p rest ih =>
    intro d x h
    rw [List.foldl_cons]
    apply ih
    rcases h with h | h
    · exact Or.inl (mem_keys_pyInsert.mpr (Or.inl h))
    · simp only [List.map_cons, List.mem_cons] at h
      rcases h with rfl | h
      · exact Or.inl (mem_keys_pyInsert.mpr (Or.inr rfl))
      · exact Or.inr h

theorem isPfx_refl : ∀ l : List Char, isPfx l l = true := by
  intro l
  induction l with
  | nil => rfl
  | cons c t ih => simp [isPfx, ih]

theorem isSubList_self : ∀ l : List Char, isSubList l l = true := by
  intro l
  cases l with
  | nil => rfl
  | cons c t => simp [isSubList, isPfx_refl]

theorem isSubList_nil : ∀ l : List Char, isSubList [] l = true := by
  intro l
  cases l with
  | nil => rfl
  | cons c t => simp [isSubList, isPfx]

theorem isSubList_cons_self (c : Char) (l : List Char) :
    isSubList l (c :: l) = true := by
  rw [isSubList, isSubList_self]
  simp

theorem pyIn_empty_left (s : String) : pyIn "" s = true :=
  isSubList_nil s.data

theorem tier2_append (kw : String) :
    ∀ (l : List (String × CommandInfo)) (res : List CommandInfo),
    ∃ t, tier2 kw l res = res ++ t := by
  intro l
  induction l with
  | nil => intro res; exact ⟨[], by simp [tier2]⟩
  | cons p rest ih =>
    intro res
    obtain ⟨k, v⟩ := p
    by_cases hm : v ∈ res
    · simpa [tier2, hm] using ih res
    · by_cases hp : pyIn kw (sLower k) = true
      · obtain ⟨t, ht⟩ := ih (res ++ [v])
        exact ⟨[v] ++ t, by simp [tier2, hm, hp, ht]⟩
      · simpa [tier2, hm, hp] using ih res

theorem tierScan_append (f : CommandInfo → String) (kw : String) (lim : Nat) :
    ∀ (l res : List CommandInfo), ∃ t, tierScan f kw lim l res = res ++ t := by
  intro l
  induction l with
  | nil => intro res; exact ⟨[], by simp [tierScan]⟩
  | cons c rest ih =>
    intro res
    by_cases hm : c ∈ res
    · simpa [tierScan, hm] using ih res
    · by_cases hp : pyIn kw (sLower (f c)) = true
      · by_cases hl : lim ≤ res.length + 1
        · exact ⟨[c], by simp [tierScan, hm, hp, hl]⟩
        · obtain ⟨t, ht⟩ := ih (res ++ [c])
          exact ⟨[c] ++ t, by simp [tierScan, hm, hp, hl, ht]⟩
      · by_cases hl : lim ≤ res.length
        · exact ⟨[], by simp [tierScan, hm, hp, hl]⟩
        · simpa [tierScan, hm, hp, hl] using ih res

theorem mem_tier2_mono (kw : String) (l : List (String × CommandInfo))
    (res : List CommandInfo) {v : CommandInfo} (h : v ∈ res) :
    v ∈ tier2 kw l res := by
  obtain ⟨t, ht⟩ := tier2_append kw l res
  rw [ht]
  exact List.mem_append_left _ h

theorem mem_tier2_of_match (kw : String) :
    ∀ (l : List (String × CommandInfo)) (res : List CommandInfo)
      (k : String) (v : CommandInfo),
    (k, v) ∈ l → pyIn kw (sLower k) = true → v ∈ tier2 kw l res := by
  intro l
  induction l with
  | nil => intro res k v h _; simp at h
  | cons p rest ih =>
    intro res k v h hp
    obtain ⟨k0, v0⟩ := p
    rcases List.mem_cons.mp h with heq | h'
    · injection heq with h1 h2
      subst h1; subst h2
      by_cases hm : v ∈ res
      · simpa [tier2, hm] using mem_tier2_mono kw rest res hm
      · simpa [tier2, hm, hp] using mem_tier2_mono kw rest (res ++ [v]) (by simp)
    · by_cases hm : v0 ∈ res
      · simpa [tier2, hm] using ih res k v h' hp
      · by_cases hk0 : pyIn kw (sLower k0) = true
        · simpa [tier2, hm, hk0] using ih (res ++ [v0]) k v h' hp
        · simpa [tier2, hm, hk0] using ih res k v h' hp

theorem tier2_no_match (kw : String) :
    ∀ (l : List (String × CommandInfo)) (res : List CommandInfo),
    (∀ p ∈ l, pyIn kw (sLower p.1) = false) → tier2 kw l res = res := by
  intro l
  induction l with
  | nil => intro res _; rfl
  | cons p rest ih =>
    intro res h
    obtain ⟨k, v⟩ := p
    have hk : pyIn kw (sLower k) = false := h (k, v) (List.mem_cons_self _ _)
    have hrest : ∀ p ∈ rest, pyIn kw (sLower p.1) = false :=
      fun p hp => h p (List.mem_cons_of_mem _ hp)
    by_cases hm : v ∈ res
    · simp [tier2, hm, ih res hrest]
    · simp [tier2, hm, hk, ih res hrest]

theorem tierScan_no_match (f : CommandInfo → String) (kw : String) (lim : Nat) :
    ∀ (l res : List CommandInfo),
    (∀ c ∈ l, pyIn kw (sLower (f c)) = false) → tierScan f kw lim l res = res := by
  intro l
  induction l with
  | nil => intro res _; rfl
  | cons c rest ih =>
    intro res h
    have hc : pyIn kw (sLower (f c)) = false := h c (List.mem_cons_self _ _)
    have hrest : ∀ c ∈ rest, pyIn kw (sLower (f c)) = false :=
      fun c hc => h c (List.mem_cons_of_mem _ hc)
    by_cases hm : c ∈ res
    · simp [tierScan, hm, ih res hrest]
    · by_cases hl : lim ≤ res.length
      · simp [tierScan, hm, hc, hl]
      · simp [tierScan, hm, hc, hl, ih res hrest]

theorem tierScan_all_mem (f : CommandInfo → String) (kw : String) (lim : Nat) :
    ∀ (l res : List CommandInfo),
    (∀ c ∈ l, c ∈ res) → tierScan f kw lim l res = res := by
  intro l
  induction l with
  | nil => intro res _; rfl
  | cons c rest ih =>
    intro res h
    have hm : c ∈ res := h c (List.mem_cons_self _ _)
    simp [tierScan, hm, ih res (fun c hc => h c (List.mem_cons_of_mem _ hc))]

theorem tier2_all_match (kw : String) :
    ∀ (l : List (String × CommandInfo)) (res : List CommandInfo),
    (∀ p ∈ l, pyIn kw (sLower p.1) = true) →
    (∀ p ∈ l, p.2 ∉ res) →
    (l.map Prod.snd).Nodup →
    tier2 kw l res = res ++ l.map Prod.snd := by
  intro l
  induction l with
  | nil => intro res _ _ _; simp [tier2]
  | cons p rest ih =>
    intro res hmatch hdisj hnd
    obtain ⟨k, v⟩ := p
    have hm : v ∉ res := hdisj (k, v) (List.mem_cons_self _ _)
    have hk : pyIn kw (sLower k) = true := hmatch (k, v) (List.mem_cons_self _ _)
    simp only [List.map_cons, List.nodup_cons] at hnd
    have ih' := ih (res ++ [v])
      (fun q hq => hmatch q (List.mem_cons_of_mem _ hq))
      (fun q hq hmem => by
        rcases List.mem_append.mp hmem with h1 | h1
        · exact hdisj q (List.mem_cons_of_mem _ hq) h1
        · have hqv : q.2 = v := by simpa using h1
          exact hnd.1 (hqv ▸ List.mem_map_of_mem Prod.snd hq))
      hnd.2
    simp [tier2, hm, hk, ih']

theorem branch_append (f : CommandInfo → String) (kw : String) (lim : Nat)
    (l res : List CommandInfo) :
    ∃ t, (if res.length < lim then tierScan f kw lim l res else res) = res ++ t := by
  by_cases h : res.length < lim
  · rw [if_pos h]
    exact tierScan_append f kw lim l res
  · rw [if_neg h]
    exact ⟨[], by simp⟩

theorem search_head_of_get {idx : Index} {kw : String} {limit : Nat} {v : CommandInfo}
    (hlim : 1 ≤ limit) (hget : pyGet idx ("/" ++ searchNorm kw) = some v) :
    (search_similar idx kw limit).head? = some v := by
  obtain ⟨m, rfl⟩ : ∃ m, limit = m + 1 :=
    ⟨limit - 1, (Nat.succ_pred_eq_of_pos hlim).symm⟩
  simp only [search_similar, hget]
  obtain ⟨t2, ht2⟩ := tier2_append (searchNorm kw) idx [v]
  rw [ht2]
  obtain ⟨t3, ht3⟩ := branch_append (fun c => c.description) (searchNorm kw) (m + 1)
    (idx.map (fun p => p.2)) ([v] ++ t2)
  rw [ht3]
  obtain ⟨t4, ht4⟩ := branch_append (fun c => c.plugin) (searchNorm kw) (m + 1)
    (idx.map (fun p => p.2)) ([v] ++ t2 ++ t3)
  rw [ht4]
  simp [List.take_succ_cons]

theorem buildPath_rebuilt (env : Env) (s : QState) : (buildPath env s).2.2 = true := by
  unfold buildPath
  cases env.stars with
  | none => rfl
  | some stars =>
    by_cases h : (stars.filter (fun st => st.activated)).isEmpty = true
    · simp [h]
    · simp [h]

theorem get_all_commands_cache_none (env : Env) (s : QState)
    (h : s.command_cache = none) : get_all_commands env s = buildPath env s := by
  unfold get_all_commands
  rw [h]

theorem get_all_commands_cache_some (env : Env) (s : QState) (c : Index)
    (h : s.command_cache = some c) :
    get_all_commands env s =
      if (should_refresh_cache env s).1 then buildPath env (should_refresh_cache env s).2
      else (c, (should_refresh_cache env s).2, false) := by
  unfold get_all_commands
  rw [h]

theorem should_refresh_of_ne (env : Env) (s : QState) (stars : List Star)
    (he : env.stars = some stars)
    (hne : (stars.filter (fun st => st.activated)).length ≠ s.last_star_count) :
    should_refresh_cache env s =
      (true, { s with last_star_count := (stars.filter (fun st => st.activated)).length }) := by
  unfold should_refresh_cache
  rw [he]
  simp [hne]

theorem rebuild_after_refresh (env : Env) (s : QState) :
    (get_all_commands env (refresh_cache env s)).2.2 = true := by
  unfold refresh_cache
  rw [get_all_commands_cache_none env { s with command_cache := none, last_star_count := 0 } rfl]
  cases henv : env.stars with
  | none =>
    have hb : buildPath env { s with command_cache := none, last_star_count := 0 } =
        ([], { command_cache := none, last_star_count := 0 }, true) := by
      unfold buildPath
      rw [henv]
    rw [hb, get_all_commands_cache_none env _ rfl]
    exact buildPath_rebuilt env _
  | some stars =>
    by_cases hact : (stars.filter (fun st => st.activated)).isEmpty = true
    · have hb : buildPath env { s with command_cache := none, last_star_count := 0 } =
          ([], { command_cache := none, last_star_count := 0 }, true) := by
        unfold buildPath
        rw [henv]
        simp [hact]
      rw [hb, get_all_commands_cache_none env _ rfl]
      exact buildPath_rebuilt env _
    · have hb : buildPath env { s with command_cache := none, last_star_count := 0 } =
          (buildFromStars (stars.filter (fun st => st.activated)) env.registry,
           { command_cache :=
               some (buildFromStars (stars.filter (fun st => st.activated)) env.registry),
             last_star_count := 0 }, true) := by
        unfold buildPath
        rw [henv]
        simp [hact]
      rw [hb]
      have hne : (stars.filter (fun st => st.activated)).length ≠ 0 := by
        intro hlen
        rw [List.length_eq_zero] at hlen
        rw [hlen] at hact
        simp at hact
      rw [get_all_commands_cache_some env _
        (buildFromStars (stars.filter (fun st => st.activated)) env.registry) rfl]
      rw [should_refresh_of_ne env _ stars henv (by simpa using hne)]
      simpa using buildPath_rebuilt env _

theorem cached_stable (env : Env) (s : QState) (c : Index) (stars : List Star)
    (hc : s.command_cache = some c) (he : env.stars = some stars)
    (hcount : (stars.filter (fun st => st.activated)).length = s.last_star_count) :
    get_all_commands env s = (c, s, false) := by
  have hsr : should_refresh_cache env s = (false, s) := by
    unfold should_refresh_cache
    rw [he]
    simp [hcount]
  unfold get_all_commands
  rw [hc]
  simp [hsr]

/-- C1 counterexample: with one activated plugin and a fresh engine, the
first query caches an index and the activated-plugin count (1) never
changes, yet the immediately following query rebuilds instead of
returning the cached index with no rebuild — the first build never
synchronizes the last-known count. -/
theorem C1_counterexample :
    ((get_all_commands envOneStar initState).2.1).command_cache = some [] ∧
      (get_all_commands envOneStar ((get_all_commands envOneStar initState).2.1)).2.2 = true := by
  decide

/-- C1 (amended): after `refresh_cache`, the very next query always
rebuilds even when the activated-plugin count is unchanged; and after a
query that leaves the engine with a cached index and a last-known count
equal to the current activated-plugin count, the next query returns the
cached index object unchanged and performs no rebuild. -/
theorem C1_cache_policy :
    (∀ (env : Env) (s : QState),
        (get_all_commands env (refresh_cache env s)).2.2 = true) ∧
      (∀ (env : Env) (s : QState) (c : Index) (stars : List Star),
        s.command_cache = some c → env.stars = some stars →
        (stars.filter (fun st => st.activated)).length = s.last_star_count →
        get_all_commands env s = (c, s, false)) :=
  ⟨rebuild_after_refresh, cached_stable⟩

/-- C1 witness: both parts of the cache-policy theorem evaluated on the
one-plugin environment. -/
theorem C1_cache_policy_witness :
    (get_all_commands envOneStar (refresh_cache envOneStar initState)).2.2 = true ∧
      get_all_commands envOneStar { command_cache := some [], last_star_count := 1 } =
        ([], { command_cache := some [], last_star_count := 1 }, false) :=
  ⟨C1_cache_policy.1 envOneStar initState,
   C1_cache_policy.2 envOneStar { command_cache := some [], last_star_count := 1 } []
     [{ name := "p", module_path := some "m", activated := true }] rfl rfl (by decide)⟩

/-- C2: when the key `/` + normalized keyword is present in the index,
search returns that record as the first element of its result, for any
positive limit and regardless of other matches. -/
theorem C2_exact_match_first (idx : Index) (kw : String) (limit : Nat) (v : CommandInfo)
    (hlim : 1 ≤ limit) (hget : pyGet idx ("/" ++ searchNorm kw) = some v) :
    (search_similar idx kw limit).head? = some v :=
  search_head_of_get hlim hget

/-- C2 witness: the exact-match record of a one-entry index is returned
first for the keyword "FISH " (trimmed, lower-cased). -/
theorem C2_exact_match_first_witness :
    1 ≤ 5 ∧ pyGet [("/fish", recA)] ("/" ++ searchNorm "FISH ") = some recA ∧
      (search_similar [("/fish", recA)] "FISH " 5).head? = some recA :=
  ⟨by decide, by decide,
   C2_exact_match_first [("/fish", recA)] "FISH " 5 recA (by decide) (by decide)⟩

/-- C3: search never returns more than `limit` records, and when no
record matches in any tier (exact key absent; no name, description or
plugin substring match) the result is the empty list, not an error. -/
theorem C3_limit_and_empty (idx : Index) (kw : String) (limit : Nat) (hlim : 1 ≤ limit) :
    (search_similar idx kw limit).length ≤ limit ∧
      ((pyGet idx ("/" ++ searchNorm kw) = none ∧
          (∀ p ∈ idx, pyIn (searchNorm kw) (sLower p.1) = false) ∧
          (∀ p ∈ idx, pyIn (searchNorm kw) (sLower p.2.description) = false) ∧
          (∀ p ∈ idx, pyIn (searchNorm kw) (sLower p.2.plugin) = false)) →
        search_similar idx kw limit = []) := by
  constructor
  · simp only [search_similar]
    exact List.length_take_le _ _
  · rintro ⟨h1, h2, h3, h4⟩
    have h3' : ∀ c ∈ idx.map (fun p => p.2),
        pyIn (searchNorm kw) (sLower c.description) = false := by
      intro c hc
      obtain ⟨p, hp, rfl⟩ := List.mem_map.mp hc
      exact h3 p hp
    have h4' : ∀ c ∈ idx.map (fun p => p.2),
        pyIn (searchNorm kw) (sLower c.plugin) = false := by
      intro c hc
      obtain ⟨p, hp, rfl⟩ := List.mem_map.mp hc
      exact h4 p hp
    have hcond : ([] : List CommandInfo).length < limit := by simpa using hlim
    simp only [search_similar, h1]
    rw [tier2_no_match _ _ _ h2]
    rw [if_pos hcond]
    rw [tierScan_no_match _ _ _ _ _ h3']
    rw [if_pos hcond]
    rw [tierScan_no_match _ _ _ _ _ h4']
    simp

/-- C3 witness: a keyword matching nothing in a one-entry index yields
the empty result, within the limit bound. -/
theorem C3_limit_and_empty_witness :
    (search_similar [("/fish", recA)] "zzz" 5).length ≤ 5 ∧
      search_similar [("/fish", recA)] "zzz" 5 = [] :=
  ⟨(C3_limit_and_empty [("/fish", recA)] "zzz" 5 (by decide)).1,
   (C3_limit_and_empty [("/fish", recA)] "zzz" 5 (by decide)).2
     ⟨by decide, by decide, by decide, by decide⟩⟩

/-- C5 counterexample: the record keyed "/Fish" differs from the keyword
"fish" only in letter case, yet the exact-match tier does not find it
(dict lookup of "/fish" is case-sensitive) and the first result is the
earlier substring match "/xfishy", not "/Fish". -/
theorem C5_counterexample :
    pyGet idxCap "/Fish" = some infoCapFish ∧
      sLower "/Fish" = "/" ++ searchNorm "fish" ∧
      (search_similar idxCap "fish" 5).head? = some infoXfy ∧
      infoXfy ≠ infoCapFish := by
  decide

/-- C5 (amended): for a record whose stored name differs from the
normalized keyword only in letter case, the name-substring tier's match
test accepts it and search finds it for a large enough limit; the
exact-match tier finds it and returns it first exactly when the stored
name itself equals the sentinel plus the lower-cased normalized
keyword. -/
theorem C5_case_insensitive (idx : Index) (kw : String) (limit : Nat)
    (k : String) (v : CommandInfo)
    (hget : pyGet idx k = some v) (hcase : sLower k = "/" ++ searchNorm kw) :
    pyIn (searchNorm kw) (sLower k) = true ∧
      (∃ lim2, v ∈ search_similar idx kw lim2) ∧
      (1 ≤ limit → k = "/" ++ searchNorm kw →
        (search_similar idx kw limit).head? = some v) := by
  have hdata : ("/" ++ searchNorm kw).data = '/' :: (searchNorm kw).data := by
    rw [String.data_append]
    rfl
  have hpy : pyIn (searchNorm kw) (sLower k) = true := by
    rw [hcase]
    show isSubList (searchNorm kw).data ("/" ++ searchNorm kw).data = true
    rw [hdata]
    exact isSubList_cons_self _ _
  refine ⟨hpy, ?_, ?_⟩
  · have hmem : (k, v) ∈ idx := pyGet_mem hget
    have hL : ∀ r1 : List CommandInfo, v ∈ tier2 (searchNorm kw) idx r1 :=
      fun r1 => mem_tier2_of_match _ idx r1 k v hmem hpy
    cases hca : pyGet idx ("/" ++ searchNorm kw) with
    | none =>
      refine ⟨(tier2 (searchNorm kw) idx []).length, ?_⟩
      simp only [search_similar, hca]
      rw [if_neg (lt_irrefl _), if_neg (lt_irrefl _), List.take_length]
      exact hL []
    | some w =>
      refine ⟨(tier2 (searchNorm kw) idx [w]).length, ?_⟩
      simp only [search_similar, hca]
      rw [if_neg (lt_irrefl _), if_neg (lt_irrefl _), List.take_length]
      exact hL [w]
  · intro hlim hkey
    exact search_head_of_get hlim (hkey ▸ hget)

/-- C5 witness: a lower-case stored record is found by the exact tier
and returned first for the differently-cased keyword "FISH". -/
theorem C5_case_insensitive_witness :
    pyIn (searchNorm "FISH") (sLower "/fish") = true ∧
      (∃ lim2, recA ∈ search_similar [("/fish", recA)] "FISH" lim2) ∧
      (search_similar [("/fish", recA)] "FISH" 5).head? = some recA := by
  have h := C5_case_insensitive [("/fish", recA)] "FISH" 5 "/fish" recA (by decide) (by decide)
  exact ⟨h.1, h.2.1, h.2.2 (by decide) (by decide)⟩

/-- C8: when the plugin-lifecycle call raises during a build, the
failure is caught: the build yields the empty index (and caches
nothing), and the `search_command` operation completes with a
structured `success = false` reply instead of propagating a fault. -/
theorem C8_registry_failure (registry : List Handler) (n : Nat) (kw cp : String) :
    get_all_commands { stars := none, registry := registry }
        { command_cache := none, last_star_count := n } =
      ([], { command_cache := none, last_star_count := n }, true) ∧
      ((search_command cp { stars := none, registry := registry }
          { command_cache := none, last_star_count := n } kw).1).success = false := by
  have h1 : get_all_commands { stars := none, registry := registry }
      { command_cache := none, last_star_count := n } =
      ([], { command_cache := none, last_star_count := n }, true) := by
    rw [get_all_commands_cache_none _ _ rfl]
    unfold buildPath
    rfl
  refine ⟨h1, ?_⟩
  by_cases hkw : kw = ""
  · simp [search_command, hkw]
  · have hempty : search_similar [] kw 5 = [] := rfl
    simp [search_command, hkw, h1, search_command_core, hempty]

/-- C4 counterexample: with two handlers whose names collide (command
"x" with alias "y", then command "z" with alias "x"), the later alias
record overwrites the real record at key "/x"; the record "/y" still
points at "/x", which is no longer a real record, so alias symmetry
fails for a concrete snapshot. -/
theorem C4_counterexample :
    ¬ aliasSym (buildFromStars [starP] [handlerXY, handlerZX]) := by
  intro h
  have hp : ("/y", recYAlias) ∈ buildFromStars [starP] [handlerXY, handlerZX] := by
    decide
  obtain ⟨q, hq, hreal⟩ := h.2 _ hp "/x" rfl
  have hcalc : pyGet (buildFromStars [starP] [handlerXY, handlerZX]) "/x" =
      some recXOverwritten := by
    decide
  rw [hcalc] at hq
  rw [← Option.some.inj hq] at hreal
  simp [recXOverwritten] at hreal

theorem handlerEntries_eq (pn : String) (h : Handler) (n : String) (al : List String)
    (hf : findCommandFilter h.event_filters = some (n, al)) (hn : n ≠ "") :
    handlerEntries pn h =
      (ensureSlash n, baseRecord pn h n al) ::
        al.map (fun a => (ensureSlash a, aliasRecord pn h n al a)) := by
  simp [handlerEntries, hf, hn, baseRecord, aliasRecord]

theorem handlerEntries_alias_entry (pn : String) (h : Handler) (k : String) (v : CommandInfo)
    (hmem : (k, v) ∈ handlerEntries pn h) :
    (v.is_alias_of = none →
      ∀ a ∈ v.aliases,
        (ensureSlash a, { v with command := ensureSlash a, is_alias_of := some v.command }) ∈
          handlerEntries pn h) ∧
    (∀ x, v.is_alias_of = some x →
      ∃ w, (x, w) ∈ handlerEntries pn h ∧ w.is_alias_of = none) := by
  cases hf : findCommandFilter h.event_filters with
  | none =>
    have he : handlerEntries pn h = [] := by
      simp [handlerEntries, hf]
    rw [he] at hmem
    simp at hmem
  | some p =>
    obtain ⟨n, al⟩ := p
    by_cases hn : n = ""
    · have he : handlerEntries pn h = [] := by
        simp [handlerEntries, hf, hn]
      rw [he] at hmem
      simp at hmem
    · have he := handlerEntries_eq pn h n al hf hn
      rw [he] at hmem
      rw [he]
      rcases List.mem_cons.mp hmem with heq | hmem'
      · injection heq with hk hv
        subst hv
        constructor
        · intro _ a ha
          apply List.mem_cons_of_mem
          apply List.mem_map.mpr
          refine ⟨a, ha, ?_⟩
          simp [aliasRecord, baseRecord]
        · intro x hx
          simp [baseRecord] at hx
      · obtain ⟨a, ha, heq⟩ := List.mem_map.mp hmem'
        have hv : v = aliasRecord pn h n al a := (congrArg Prod.snd heq).symm
        constructor
        · intro hnone
          rw [hv] at hnone
          simp [aliasRecord, baseRecord] at hnone
        · intro x hx
          rw [hv] at hx
          have hx' : ensureSlash n = x := by
            simpa [aliasRecord, baseRecord] using hx
          refine ⟨baseRecord pn h n al, ?_, rfl⟩
          rw [← hx']
          exact List.mem_cons_self _ _

theorem starEntries_alias_entry (registry : List Handler) (star : Star)
    (k : String) (v : CommandInfo) (hmem : (k, v) ∈ starEntries registry star) :
    (v.is_alias_of = none →
      ∀ a ∈ v.aliases,
        (ensureSlash a, { v with command := ensureSlash a, is_alias_of := some v.command }) ∈
          starEntries registry star) ∧
    (∀ x, v.is_alias_of = some x →
      ∃ w, (x, w) ∈ starEntries registry star ∧ w.is_alias_of = none) := by
  by_cases hd : star.name ∈ denylist
  · have he : starEntries registry star = [] := by
      unfold starEntries
      rw [if_pos hd]
    rw [he] at hmem
    simp at hmem
  · cases hmp : star.module_path with
    | none =>
      have he : starEntries registry star = [] := by
        unfold starEntries
        rw [if_neg hd, hmp]
      rw [he] at hmem
      simp at hmem
    | some mp =>
      have he : starEntries registry star =
          (registry.filter (fun h2 => h2.handler_module_path = mp)).flatMap
            (handlerEntries star.name) := by
        unfold starEntries
        rw [if_neg hd, hmp]
      rw [he] at hmem
      rw [he]
      obtain ⟨h, hh, hin⟩ := List.mem_flatMap.mp hmem
      have hspec := handlerEntries_alias_entry star.name h k v hin
      constructor
      · intro hnone a ha
        exact List.mem_flatMap.mpr ⟨h, hh, hspec.1 hnone a ha⟩
      · intro x hx
        obtain ⟨w, hw, hwn⟩ := hspec.2 x hx
        exact ⟨w, List.mem_flatMap.mpr ⟨h, hh, hw⟩, hwn⟩

theorem entries_alias_entry (stars : List Star) (registry : List Handler)
    (k : String) (v : CommandInfo)
    (hmem : (k, v) ∈ stars.flatMap (starEntries registry)) :
    (v.is_alias_of = none → ∀ a ∈ v.aliases,
        (ensureSlash a, { v with command := ensureSlash a, is_alias_of := some v.command }) ∈
          stars.flatMap (starEntries registry)) ∧
    (∀ x, v.is_alias_of = some x →
      ∃ w, (x, w) ∈ stars.flatMap (starEntries registry) ∧ w.is_alias_of = none) := by
  obtain ⟨st, hst, hin⟩ := List.mem_flatMap.mp hmem
  have hspec := starEntries_alias_entry registry st k v hin
  constructor
  · intro hnone a ha
    exact List.mem_flatMap.mpr ⟨st, hst, hspec.1 hnone a ha⟩
  · intro x hx
    obtain ⟨w, hw, hwn⟩ := hspec.2 x hx
    exact ⟨w, List.mem_flatMap.mpr ⟨st, hst, hw⟩, hwn⟩

/-- C4 (amended): alias symmetry holds for every snapshot whose
contributed entries have pairwise-distinct keys (no name collisions):
every real record's alias names resolve to alias records pointing back
at it, and every alias record's target is a real record. -/
theorem C4_alias_symmetry (stars : List Star) (registry : List Handler)
    (hnd : ((stars.flatMap (starEntries registry)).map Prod.fst).Nodup) :
    aliasSym (buildFromStars stars registry) := by
  have hfold : buildFromStars stars registry = stars.flatMap (starEntries registry) := by
    unfold buildFromStars
    have hfo := foldl_pyInsert_nodup (stars.flatMap (starEntries registry)) []
      (by simpa using hnd)
    simpa using hfo
  rw [hfold]
  constructor
  · rintro ⟨k, v⟩ hmem hnone a ha
    have hsp := (entries_alias_entry stars registry k v hmem).1 hnone a ha
    exact ⟨{ v with command := ensureSlash a, is_alias_of := some v.command },
      pyGet_nodup hnd hsp, rfl⟩
  · rintro ⟨k, v⟩ hmem x hx
    obtain ⟨w, hw, hwn⟩ := (entries_alias_entry stars registry k v hmem).2 x hx
    exact ⟨w, pyGet_nodup hnd hw, hwn⟩

/-- C4 witness: a collision-free snapshot (one handler, command "x"
with alias "y") has no duplicate keys and its built index is
alias-symmetric. -/
theorem C4_alias_symmetry_witness :
    (([starP].flatMap (starEntries [handlerXY])).map Prod.fst).Nodup ∧
      aliasSym (buildFromStars [starP] [handlerXY]) :=
  ⟨by decide, C4_alias_symmetry [starP] [handlerXY] (by decide)⟩

/-- C6: at the failing input — a handler declaring command "钓鱼" with
alias set {"fish"} — the built record stores the raw alias "fish"
(without the sentinel) in its `aliases` field, even though the alias
index key "/fish" is normalized; the builder's own docstring format
example shows prefixed aliases. -/
theorem C6_alias_not_normalized :
    (pyGet (buildFromStars [starP] [handlerDiao]) "/钓鱼").map (fun c => c.aliases) =
        some ["fish"] ∧
      headIsSlash "fish" = false ∧
      pyGet (buildFromStars [starP] [handlerDiao]) "/fish" ≠ none := by
  decide

/-- C7 counterexample: "astrbot-reminder" is neither of the two names
the claim allows the denylist to contain, yet the plugin contributes no
records — the code's denylist has a third entry. -/
theorem C7_counterexample :
    "astrbot-reminder" ≠ "astrbot" ∧
      "astrbot-reminder" ≠ "astrbot_plugin_command_query" ∧
      buildFromStars [starReminder] [handlerRemind] = [] := by
  decide

/-- C7 (amended): the builder's denylist is exactly {"astrbot",
"astrbot_plugin_command_query", "astrbot-reminder"}: a denylisted star
contributes no entries, and every activated star with a module identity
and a name outside that denylist contributes each of its handlers'
non-empty command names as a key of the built index. -/
theorem C7_denylist :
    (∀ (registry : List Handler) (star : Star),
        star.name ∈ denylist → starEntries registry star = []) ∧
      (∀ (stars : List Star) (registry : List Handler) (star : Star) (mp : String)
          (h : Handler) (nm : String) (al : List String),
        star ∈ stars → star.activated = true → star.module_path = some mp →
        star.name ∉ denylist → h ∈ registry → h.handler_module_path = mp →
        findCommandFilter h.event_filters = some (nm, al) → nm ≠ "" →
        ensureSlash nm ∈
          (buildFromStars (stars.filter (fun st => st.activated)) registry).map Prod.fst) := by
  constructor
  · intro registry star hmem
    unfold starEntries
    rw [if_pos hmem]
  · intro stars registry star mp h nm al hstar hact hmp hdeny hh hpath hfind hnm
    unfold buildFromStars
    apply mem_keys_foldl
    right
    have hentry : (ensureSlash nm, baseRecord star.name h nm al) ∈
        starEntries registry star := by
      have he : starEntries registry star =
          (registry.filter (fun h2 => h2.handler_module_path = mp)).flatMap
            (handlerEntries star.name) := by
        unfold starEntries
        rw [if_neg hdeny, hmp]
      rw [he]
      apply List.mem_flatMap.mpr
      refine ⟨h, List.mem_filter.mpr ⟨hh, by simp [hpath]⟩, ?_⟩
      rw [handlerEntries_eq star.name h nm al hfind hnm]
      exact List.mem_cons_self _ _
    have hstar' : star ∈ stars.filter (fun st => st.activated) :=
      List.mem_filter.mpr ⟨hstar, by simp [hact]⟩
    exact List.mem_map_of_mem Prod.fst
      (List.mem_flatMap.mpr ⟨star, hstar', hentry⟩)

/-- C7 witness: a denylisted star contributes nothing, while the plugin
"pl7" (outside the denylist) contributes the key "/remind". -/
theorem C7_denylist_witness :
    starEntries [handlerRemind]
        { name := "astrbot", module_path := some "m7", activated := true } = [] ∧
      ensureSlash "remind" ∈
        (buildFromStars
          ([{ name := "pl7", module_path := some "m7", activated := true }].filter
            (fun st => st.activated)) [handlerRemind]).map Prod.fst :=
  ⟨C7_denylist.1 [handlerRemind] _ (by decide),
   C7_denylist.2 [{ name := "pl7", module_path := some "m7", activated := true }]
     [handlerRemind] { name := "pl7", module_path := some "m7", activated := true } "m7"
     handlerRemind "remind" [] (by decide) rfl rfl (by decide) (by decide) rfl rfl
     (by decide)⟩

/-- C9 counterexample: for the input " fish" (leading whitespace),
detail lookup misses and runs search on the normalized name "/ fish",
yielding no suggestions, whereas search with the un-normalized input
" fish" (as the claim demands) would trim it and return "/fish". -/
theorem C9_counterexample :
    ((get_command_detail "/" envFish initState " fish").1).success = false ∧
      ((get_command_detail "/" envFish initState " fish").1).suggestions = some [] ∧
      (search_similar (get_all_commands envFish initState).1 " fish" 3).map
          (fun c => c.command) = ["/fish"] := by
  decide

/-- C9 (amended): for a non-empty command name absent from the index
after sentinel normalization, detail lookup returns a structured
failure with `success = false` and suggestions equal to the command
names that search with the sentinel-normalized input and limit 3
returns (possibly empty), never a raised fault. -/
theorem C9_detail_suggestions (cp : String) (env : Env) (s : QState) (cn : String)
    (hcn : cn ≠ "")
    (habs : pyGet (get_all_commands env s).1 (ensureSlash cn) = none) :
    ((get_command_detail cp env s cn).1).success = false ∧
      ((get_command_detail cp env s cn).1).suggestions =
        some ((search_similar (get_all_commands env s).1 (ensureSlash cn) 3).map
          (fun c => c.command)) := by
  refine ⟨?_, ?_⟩ <;>
    simp [get_command_detail, if_neg hcn, get_command_detail_core, habs]

/-- C9 witness: the absent name "nope" produces a structured failure
whose suggestions agree with the limit-3 search on "/nope". -/
theorem C9_detail_suggestions_witness :
    ((get_command_detail "/" envFish initState "nope").1).success = false ∧
      ((get_command_detail "/" envFish initState "nope").1).suggestions =
        some ((search_similar (get_all_commands envFish initState).1 (ensureSlash "nope") 3).map
          (fun c => c.command)) :=
  C9_detail_suggestions "/" envFish initState "nope" (by decide) (by decide)

theorem branch_all_mem (f : CommandInfo → String) (kw : String) (lim : Nat)
    (l res : List CommandInfo) (h : ∀ c ∈ l, c ∈ res) :
    (if res.length < lim then tierScan f kw lim l res else res) = res := by
  by_cases hc : res.length < lim
  · rw [if_pos hc]
    exact tierScan_all_mem f kw lim l res h
  · rw [if_neg hc]

/-- C10 counterexample: with the whitespace keyword " " on an index
whose second record is keyed by the bare sentinel "/", the exact tier
returns "/" first, so the result is not the first `limit` records of
the index in iteration order. -/
theorem C10_counterexample :
    ((search_command "/" envSlash initState " ").1).success = true ∧
      ((search_command "/" envSlash initState " ").1).results ≠
        ((((get_all_commands envSlash initState).1).map (fun p => p.2)).take 5).map
          (cleanInfo "/") := by
  decide

/-- C10 (amended): a non-empty whitespace-only keyword passes the
missing-argument check and normalizes to the empty string, a substring
of every name; on a non-empty index with no record keyed by the bare
sentinel and pairwise-distinct record values, `search_command` succeeds
and returns exactly the first 5 index records in iteration order
(display-cleaned). -/
theorem C10_whitespace_keyword (cp : String) (env : Env) (s : QState) (kw : String)
    (hkw : kw ≠ "") (hws : sTrim (sLower kw) = "")
    (hne : (get_all_commands env s).1 ≠ [])
    (hslash : "/" ∉ ((get_all_commands env s).1).map Prod.fst)
    (hnd : (((get_all_commands env s).1).map Prod.snd).Nodup) :
    ((search_command cp env s kw).1).success = true ∧
      ((search_command cp env s kw).1).results =
        ((((get_all_commands env s).1).map Prod.snd).take 5).map (cleanInfo cp) := by
  have hnorm : searchNorm kw = "" := by
    unfold searchNorm
    rw [hws]
    rfl
  have happ : ("/" ++ searchNorm kw) = "/" := by
    rw [hnorm]
    rfl
  have hget : pyGet (get_all_commands env s).1 ("/" ++ searchNorm kw) = none := by
    rw [happ]
    exact pyGet_eq_none hslash
  have hmatch : ∀ p ∈ (get_all_commands env s).1,
      pyIn (searchNorm kw) (sLower p.1) = true := by
    intro p _
    rw [hnorm]
    exact pyIn_empty_left _
  have ht2 : tier2 (searchNorm kw) (get_all_commands env s).1 [] =
      [] ++ ((get_all_commands env s).1).map Prod.snd :=
    tier2_all_match _ _ [] hmatch (by simp) hnd
  have hsearch : search_similar (get_all_commands env s).1 kw 5 =
      (((get_all_commands env s).1).map Prod.snd).take 5 := by
    simp only [search_similar, hget]
    rw [ht2, List.nil_append]
    rw [branch_all_mem _ _ _ _ _ (fun c hc => hc)]
    rw [branch_all_mem _ _ _ _ _ (fun c hc => hc)]
  have hie : ((((get_all_commands env s).1).map Prod.snd).take 5).isEmpty = false := by
    cases hm : ((get_all_commands env s).1).map Prod.snd with
    | nil => exact absurd (List.map_eq_nil_iff.mp hm) hne
    | cons a t => rfl
  have hcore : search_command_core cp (get_all_commands env s).1 kw =
      { success := true,
        results := ((((get_all_commands env s).1).map Prod.snd).take 5).map (cleanInfo cp) } := by
    simp only [search_command_core]
    rw [hsearch, hie]
    simp
  have htool : (search_command cp env s kw).1 =
      search_command_core cp (get_all_commands env s).1 kw := by
    simp only [search_command, if_neg hkw]
  rw [htool, hcore]
  exact ⟨rfl, rfl⟩

/-- C10 witness: the whitespace keyword " " on the one-record "/fish"
index succeeds and returns that record. -/
theorem C10_whitespace_keyword_witness :
    ((search_command "/" envFish initState " ").1).success = true ∧
      ((search_command "/" envFish initState " ").1).results =
        ((((get_all_commands envFish initState).1).map Prod.snd).take 5).map (cleanInfo "/") :=
  C10_whitespace_keyword "/" envFish initState " " (by decide) (by decide) (by decide)
    (by decide) (by decide)

end CommandQuery
